import Mathlib

/-!
Verification development for the flowprompt caching engine.

The repository source visible here is the package export surface
(`src/flowprompt/__init__.py`); the caching engine it re-exports
(`flowprompt.core.cache`) is not part of the visible source, so the cache
data model and operations below are modelled from the specification
(`spec.md`), faithful to its words.  The export-surface definitions at the
end are translated directly from `__init__.py`.
-/

/-- Modelled from the spec: the error taxonomy of section 7.  The source
module `flowprompt.core.cache` defining these exception classes is missing;
`CacheBackendError` covers storage medium failure (disk full, permission
denied, corrupt record). -/
inductive CacheBackendError where
  | diskFull
  | permissionDenied
  | corruptRecord
deriving DecidableEq, Repr

/-- Modelled from the spec: failure of the wrapped `compute()` callback.
Not a cache error; it is propagated unchanged. -/
inductive ComputeError where
  | failure (msg : String)
deriving DecidableEq, Repr

/-- Modelled from the spec: `CacheEntry`, the missing passive value type of
section 4.2, holding `payload`, `created_at`, nullable `ttl`,
`last_accessed` and `hit_count`.  Timestamps and durations are integers. -/
structure CacheEntry where
  payload : String
  created_at : Int
  ttl : Option Int
  last_accessed : Int
  hit_count : Nat
deriving DecidableEq, Repr

/-- Modelled from the spec: `is_expired(now)` is true when `ttl` is set and
`now - created_at >= ttl`; no TTL means never expired by time. -/
def CacheEntry.is_expired (e : CacheEntry) (now : Int) : Bool :=
  match e.ttl with
  | none => false
  | some t => now - e.created_at ≥ t

/-- Modelled from the spec: `MemoryCache`, the missing in-process backend of
section 4.4.  The bounded ordered map is a list of (fingerprint, entry)
pairs with the most-recently-used entry at the front. -/
structure MemoryCache where
  max_size : Nat
  data : List (String × CacheEntry)
deriving DecidableEq, Repr

/-- Modelled from the spec: `put` overwrites unconditionally, inserts at the
most-recently-used (front) position, and evicts least-recently-used entries
(from the back) until the size is within `max_size`. -/
def MemoryCache.put (s : MemoryCache) (key : String) (e : CacheEntry) :
    MemoryCache :=
  { s with data := ((key, e) :: s.data.filter (fun p => p.1 != key)).take s.max_size }

/-- Modelled from the spec: `get` checks expiry (an expired entry is treated
as absent and removed opportunistically), and a live hit moves the entry to
the most-recently-used position, refreshing `last_accessed` and bumping
`hit_count`.  Returns the observed entry and the updated backend. -/
def MemoryCache.get (s : MemoryCache) (now : Int) (key : String) :
    Option CacheEntry × MemoryCache :=
  match s.data.find? (fun p => p.1 == key) with
  | none => (none, s)
  | some hit =>
    if hit.2.is_expired now then
      (none, { s with data := s.data.filter (fun p => p.1 != key) })
    else
      let e' := { hit.2 with last_accessed := now, hit_count := hit.2.hit_count + 1 }
      (some e', { s with data := (key, e') :: s.data.filter (fun p => p.1 != key) })

/-- Modelled from the spec: `delete` is idempotent removal. -/
def MemoryCache.delete (s : MemoryCache) (key : String) : MemoryCache :=
  { s with data := s.data.filter (fun p => p.1 != key) }

/-- Modelled from the spec: `clear` removes all entries. -/
def MemoryCache.clear (s : MemoryCache) : MemoryCache :=
  { s with data := [] }

/-- Modelled from the spec: `FileCache`, the missing durable backend of
section 4.5.  The directory contents are a map from fingerprint to stored
record (the per-fingerprint filename is a stable, injective encoding of the
fingerprint, so the map is keyed by the fingerprint itself); `writable`
models whether the storage medium accepts writes (false = disk full or
unwritable directory). -/
structure FileCache where
  writable : Bool
  files : List (String × CacheEntry)
deriving DecidableEq, Repr

/-- Modelled from the spec: `put` writes one record per fingerprint if the
medium is writable, and signals `CacheBackendError` otherwise. -/
def FileCache.put (s : FileCache) (key : String) (e : CacheEntry) :
    Except CacheBackendError FileCache :=
  if s.writable then
    .ok { s with files := (key, e) :: s.files.filter (fun p => p.1 != key) }
  else
    .error .diskFull

/-- Modelled from the spec: `get` deserializes the stored record; an expired
entry is treated as absent and removed opportunistically. -/
def FileCache.get (s : FileCache) (now : Int) (key : String) :
    Option CacheEntry × FileCache :=
  match s.files.find? (fun p => p.1 == key) with
  | none => (none, s)
  | some hit =>
    if hit.2.is_expired now then
      (none, { s with files := s.files.filter (fun p => p.1 != key) })
    else
      (some hit.2, s)

/-- Modelled from the spec: `delete` removes the corresponding file. -/
def FileCache.delete (s : FileCache) (key : String) : FileCache :=
  { s with files := s.files.filter (fun p => p.1 != key) }

/-- Modelled from the spec: `clear` removes the directory contents. -/
def FileCache.clear (s : FileCache) : FileCache :=
  { s with files := [] }

/-- Modelled from the spec: the polymorphic `CacheBackend` over the two
concrete storage strategies, Memory and File. -/
inductive BackendState where
  | memory : MemoryCache → BackendState
  | file : FileCache → BackendState
deriving DecidableEq, Repr

/-- Backend `get`, dispatching on the storage strategy. -/
def BackendState.get (b : BackendState) (now : Int) (key : String) :
    Option CacheEntry × BackendState :=
  match b with
  | .memory m =>
    let r := m.get now key
    (r.1, .memory r.2)
  | .file f =>
    let r := f.get now key
    (r.1, .file r.2)

/-- Backend `put`, dispatching on the storage strategy; only the file
backend's medium can fail. -/
def BackendState.put (b : BackendState) (key : String) (e : CacheEntry) :
    Except CacheBackendError BackendState :=
  match b with
  | .memory m => .ok (.memory (m.put key e))
  | .file f => (f.put key e).map .file

/-- Modelled from the spec: the missing `PromptCache` facade state of
section 4.6, owning one backend, a `default_ttl`, an `enabled` flag, and
hit/miss statistics. -/
structure PromptCache where
  enabled : Bool
  default_ttl : Option Int
  backend : BackendState
  hits : Nat
  misses : Nat
deriving DecidableEq, Repr

/-- Outcome of one `get_or_compute` call: the returned value or propagated
compute failure, the updated cache, and whether the compute callback was
invoked. -/
structure CallOutcome where
  result : Except ComputeError String
  cache : PromptCache
  computed : Bool
deriving Repr

/-- Modelled from the spec: the missing `get_or_compute` algorithm of
section 4.6, sequential caller model.  The zero-argument compute callback is
modelled by its one-shot outcome; `computed` records whether it was invoked.
Step 1: if disabled, call compute directly, bypassing the backend.
Step 2: on a live backend hit, increment hit statistics and return the
stored payload without computing.  Step 4: on a miss, invoke compute; on
success wrap the result in a `CacheEntry` with `ttl_override` or
`default_ttl` and store it via the backend, treating a `CacheBackendError`
from the store as a non-fatal logged condition; on compute failure store
nothing and propagate the failure. -/
def PromptCache.get_or_compute (pc : PromptCache) (fingerprint : String)
    (ttl_override : Option Int) (compute : Except ComputeError String)
    (now : Int) : CallOutcome :=
  if pc.enabled = false then
    ⟨compute, pc, true⟩
  else
    match pc.backend.get now fingerprint with
    | (some e, b') =>
      ⟨.ok e.payload, { pc with backend := b', hits := pc.hits + 1 }, false⟩
    | (none, b') =>
      match compute with
      | .error err =>
        ⟨.error err, { pc with backend := b', misses := pc.misses + 1 }, true⟩
      | .ok v =>
        let entry : CacheEntry :=
          { payload := v, created_at := now, ttl := ttl_override <|> pc.default_ttl,
            last_accessed := now, hit_count := 0 }
        match b'.put fingerprint entry with
        | .ok b'' =>
          ⟨.ok v, { pc with backend := b'', misses := pc.misses + 1 }, true⟩
        | .error _ =>
          ⟨.ok v, { pc with backend := b', misses := pc.misses + 1 }, true⟩

/-- A sequence of `get_or_compute` calls for one fingerprint, each with its
own timestamp and compute outcome, threading the cache state; returns the
per-call (result, computed) observations and the final cache. -/
def callsSeq (pc : PromptCache) (key : String) (ttl_override : Option Int) :
    List (Int × Except ComputeError String) →
    List (Except ComputeError String × Bool) × PromptCache
  | [] => ([], pc)
  | c :: rest =>
    let r := pc.get_or_compute key ttl_override c.2 c.1
    let tail := callsSeq r.cache key ttl_override rest
    ((r.result, r.computed) :: tail.1, tail.2)

/-- Modelled from the spec: the missing key deriver's canonicalization of a
keyed collection — each pair is encoded and the encodings are put in sorted
order, so insertion order does not affect the result. -/
def canonicalize (pairs : List (String × String)) : String :=
  String.intercalate ";"
    (List.insertionSort (fun a b : String => a ≤ b)
      (pairs.map (fun p => p.1 ++ "=" ++ p.2)))

/-- Modelled from the spec: the missing key deriver
`derive(identity, rendered_inputs, model, params)` of section 4.1.  The
collision-resistant hash applied after canonical encoding is modelled by the
canonical encoding itself (a deterministic function of it), which preserves
the determinism and order-independence being specified. -/
def derive (identity : String) (rendered_inputs : List (String × String))
    (model : String) (params : List (String × String)) : String :=
  "fp:" ++ identity ++ "|" ++ canonicalize rendered_inputs ++ "|" ++ model
    ++ "|" ++ canonicalize params

/-- The module version string assigned in `src/flowprompt/__init__.py`. -/
def module_version : String := "0.1.0"

/-- The names bound in the flowprompt module by its import statements, in
source order (`from flowprompt.core.cache import ...` through
`from flowprompt.tracing.otel import ...`). -/
def importedNames : List String :=
  ["CacheBackend", "CacheEntry", "FileCache", "MemoryCache", "PromptCache",
   "configure_cache", "get_cache",
   "Field", "Prompt",
   "AsyncStreamingResponse", "StreamChunk", "StreamingResponse",
   "PromptConfig", "PromptRegistry", "load_prompt", "load_prompts",
   "SpanContext", "Tracer", "UsageInfo", "configure_tracer", "get_tracer"]

/-- The `__all__` list of `src/flowprompt/__init__.py`, in source order. -/
def all_exports : List String :=
  ["__version__",
   "Prompt", "Field",
   "StreamChunk", "StreamingResponse", "AsyncStreamingResponse",
   "PromptCache", "CacheEntry", "CacheBackend", "MemoryCache", "FileCache",
   "get_cache", "configure_cache",
   "Tracer", "SpanContext", "UsageInfo", "get_tracer", "configure_tracer",
   "PromptConfig", "PromptRegistry", "load_prompt", "load_prompts"]

/-- The names bound at module level in `__init__.py` above `__all__`: the
version assignment plus the imports. -/
def boundNames : List String := "__version__" :: importedNames

/-- A default-style entry used in concrete scenarios: payload `v`, created
at `t`, no TTL. -/
def mkEntry (v : String) (t : Int) : CacheEntry :=
  { payload := v, created_at := t, ttl := none, last_accessed := t, hit_count := 0 }

/-- C7: for every `CacheEntry` and timestamp `now`, `is_expired now` is true
exactly when `ttl` is set and `now - created_at >= ttl`; an entry whose
`ttl` is unset is never expired by time, for any `now`. -/
theorem cacheEntry_is_expired_iff :
    (∀ (e : CacheEntry) (now : Int),
      e.is_expired now = true ↔ ∃ t, e.ttl = some t ∧ t ≤ now - e.created_at) ∧
    (∀ (e : CacheEntry) (now : Int), e.ttl = none → e.is_expired now = false) := by
  constructor
  · intro e now
    unfold CacheEntry.is_expired
    cases h : e.ttl with
    | none => simp
    | some t => simp [ge_iff_le]
  · intro e now h
    unfold CacheEntry.is_expired
    rw [h]

/-- Witness for C7: a TTL-less entry is not expired even far in the
future. -/
theorem cacheEntry_is_expired_iff_witness :
    CacheEntry.is_expired ⟨"A", 0, none, 0, 0⟩ 999999 = false :=
  cacheEntry_is_expired_iff.2 ⟨"A", 0, none, 0, 0⟩ 999999 rfl

/-- C3: when the cache's `enabled` flag is false, `get_or_compute` invokes
the compute callback and returns its result, with the whole cache state
(backend included) unchanged: no backend read, no backend write. -/
theorem get_or_compute_disabled (pc : PromptCache) (k : String)
    (ttlo : Option Int) (cmp : Except ComputeError String) (now : Int)
    (h : pc.enabled = false) :
    pc.get_or_compute k ttlo cmp now = ⟨cmp, pc, true⟩ := by
  unfold PromptCache.get_or_compute
  rw [h]
  rfl

/-- Witness for C3: a disabled cache over a nonempty memory backend calls
compute directly and leaves the backend untouched. -/
theorem get_or_compute_disabled_witness :
    PromptCache.get_or_compute
      ⟨false, some 3600, .memory ⟨2, [("k1", mkEntry "A" 0)]⟩, 0, 0⟩
      "k1" none (.ok "B") 5 =
    ⟨.ok "B", ⟨false, some 3600, .memory ⟨2, [("k1", mkEntry "A" 0)]⟩, 0, 0⟩, true⟩ :=
  get_or_compute_disabled _ "k1" none (.ok "B") 5 rfl

/-- The canonical encoding is invariant under permutation of the input
pairs: sorting quotients out the insertion order. -/
theorem canonicalize_perm {l1 l2 : List (String × String)} (h : l1.Perm l2) :
    canonicalize l1 = canonicalize l2 := by
  unfold canonicalize
  congr 1
  exact List.eq_of_perm_of_sorted (r := fun a b : String => a ≤ b)
    (((List.perm_insertionSort _ _).trans (h.map _)).trans
      (List.perm_insertionSort _ _).symm)
    (List.sorted_insertionSort _ _) (List.sorted_insertionSort _ _)

/-- C8: the key deriver is deterministic and order-independent: presenting
the rendered inputs and the call parameters in any insertion order (any
permutation of the same pairs) yields the same fingerprint string, because
the inputs are canonicalized by sorted encoding before hashing. -/
theorem derive_perm_invariant (identity model : String)
    (ri1 ri2 p1 p2 : List (String × String))
    (hri : ri1.Perm ri2) (hp : p1.Perm p2) :
    derive identity ri1 model p1 = derive identity ri2 model p2 := by
  unfold derive
  rw [canonicalize_perm hri, canonicalize_perm hp]

/-- Witness for C8: reordering the parameter pairs leaves the fingerprint
unchanged. -/
theorem derive_perm_invariant_witness :
    derive "p" [("x", "1"), ("y", "2")] "m" [("b", "2"), ("a", "1")] =
    derive "p" [("y", "2"), ("x", "1")] "m" [("a", "1"), ("b", "2")] :=
  derive_perm_invariant "p" "m" _ _ _ _
    (List.Perm.swap ("y", "2") ("x", "1") [])
    (List.Perm.swap ("a", "1") ("b", "2") [])

/-- C10 counterexample: `__all__` in `__init__.py` has 22 entries (21
public symbols plus `__version__`), not the claimed 19 public symbols plus
`__version__` (20 entries), so the claim as stated is false. -/
theorem all_exports_count_cex :
    ¬ (all_exports.length = 20 ∧
       all_exports.all (fun n => boundNames.contains n) = true ∧
       module_version = "0.1.0") :=
  fun h => absurd h.1 (by decide)

/-- C10 amended: every name in `__all__` (the 21 public symbols plus
`__version__`, 22 entries) is bound in the module by the imports above it
or the version assignment, `__version__` equals "0.1.0", and all seven
cache symbols the spec names are part of the exported surface. -/
theorem all_exports_sound :
    all_exports.length = 22 ∧
    all_exports.all (fun n => boundNames.contains n) = true ∧
    module_version = "0.1.0" ∧
    (["PromptCache", "CacheEntry", "CacheBackend", "MemoryCache", "FileCache",
      "get_cache", "configure_cache"].all
        (fun n => all_exports.contains n)) = true :=
  ⟨rfl, rfl, rfl, rfl⟩

/-- An entry with a TTL strictly larger than the elapsed time is not
expired. -/
theorem is_expired_false_of_lt (e : CacheEntry) (now Tv : Int)
    (ht : e.ttl = some Tv) (h : now - e.created_at < Tv) :
    e.is_expired now = false := by
  unfold CacheEntry.is_expired
  rw [ht]
  simp only [ge_iff_le, decide_eq_false_iff_not]
  omega

/-- `MemoryCache.get` never changes the capacity bound. -/
theorem memoryCache_get_max_size (s : MemoryCache) (now : Int) (k : String) :
    (s.get now k).2.max_size = s.max_size := by
  unfold MemoryCache.get
  cases hf : s.data.find? (fun p => p.1 == k) with
  | none => rfl
  | some hit => by_cases hex : hit.2.is_expired now <;> simp [hex]

/-- Filtering out a key removes every record `find?` could return for
it. -/
theorem find?_filter_ne (l : List (String × CacheEntry)) (k : String) :
    (l.filter (fun p => p.1 != k)).find? (fun p => p.1 == k) = none := by
  induction l with
  | nil => rfl
  | cons a l ih =>
    by_cases h : a.1 = k
    · rw [List.filter_cons_of_neg (by simp [h])]
      exact ih
    · simp [List.filter_cons, h, List.find?_cons, ih]

/-- A `get` on the state left behind by a key's lazy purge still misses
that key. -/
theorem memoryCache_get_filtered (s : MemoryCache) (now : Int) (k : String) :
    (MemoryCache.get
      { s with data := s.data.filter (fun p => p.1 != k) } now k).1 = none := by
  unfold MemoryCache.get
  rw [find?_filter_ne]

/-- A miss is stable: running `get` again for the same key at the same time
on the updated state still misses. -/
theorem memoryCache_miss_stable (s : MemoryCache) (now : Int) (k : String)
    (h : (s.get now k).1 = none) :
    ((s.get now k).2.get now k).1 = none := by
  cases hf : s.data.find? (fun p => p.1 == k) with
  | none =>
    have he : s.get now k = (none, s) := by
      unfold MemoryCache.get
      rw [hf]
    simp only [he]
  | some hit =>
    by_cases hex : hit.2.is_expired now
    · have he : s.get now k =
          (none, { s with data := s.data.filter (fun p => p.1 != k) }) := by
        unfold MemoryCache.get
        rw [hf]
        simp [hex]
      rw [he]
      exact memoryCache_get_filtered s now k
    · exfalso
      unfold MemoryCache.get at h
      rw [hf] at h
      simp [hex] at h

/-- C4: for a `MemoryCache` with `max_size = N`, (i) the entry count never
exceeds N after any `put` (eviction on `put` keeps the map within bound);
(ii) a `get` that finds a live entry moves it to the most-recently-used
(front) position; (iii) with N = 2, after inserting the 3 distinct
fingerprints a, b, c the least-recently-used one (a) is absent on lookup;
(iv) accessing a refreshes its recency, so a later `put` of c evicts b
instead and a is still present with its payload. -/
theorem memoryCache_lru_bound :
    (∀ (s : MemoryCache) (k : String) (e : CacheEntry),
      (s.put k e).data.length ≤ s.max_size) ∧
    (∀ (s : MemoryCache) (now : Int) (k : String) (e' : CacheEntry),
      (s.get now k).1 = some e' → (s.get now k).2.data.head? = some (k, e')) ∧
    ((((((MemoryCache.mk 2 []).put "a" (mkEntry "A" 0)).put "b"
        (mkEntry "B" 1)).put "c" (mkEntry "C" 2)).get 3 "a").1 = none) ∧
    (((((((MemoryCache.mk 2 []).put "a" (mkEntry "A" 0)).put "b"
        (mkEntry "B" 1)).get 2 "a").2.put "c" (mkEntry "C" 3)).get 4 "b").1
        = none) ∧
    ((((((((MemoryCache.mk 2 []).put "a" (mkEntry "A" 0)).put "b"
        (mkEntry "B" 1)).get 2 "a").2.put "c" (mkEntry "C" 3)).get 4
        "a").1.map CacheEntry.payload) = some "A") := by
  refine ⟨?_, ?_, by decide, by decide, by decide⟩
  · intro s k e
    unfold MemoryCache.put
    simp only [List.length_take]
    exact min_le_left _ _
  · intro s now k e' h
    unfold MemoryCache.get at h ⊢
    cases hf : s.data.find? (fun p => p.1 == k) with
    | none =>
      rw [hf] at h
      simp at h
    | some hit =>
      rw [hf] at h
      by_cases hex : hit.2.is_expired now
      · simp [hex] at h
      · simp [hex] at h ⊢
        exact h

/-- Witness for C4: a live hit on a singleton memory cache moves the
refreshed entry to the front. -/
theorem memoryCache_lru_bound_witness :
    ((MemoryCache.mk 2 [("a", mkEntry "A" 0)]).get 1 "a").2.data.head? =
      some ("a", ⟨"A", 0, none, 1, 1⟩) :=
  memoryCache_lru_bound.2.1 (MemoryCache.mk 2 [("a", mkEntry "A" 0)]) 1 "a"
    ⟨"A", 0, none, 1, 1⟩ (by decide)

/-- C6: when the compute callback fails on a `get_or_compute` miss, the
failure propagates unchanged to the caller, the callback was invoked,
nothing is stored (the resulting backend is exactly the post-lookup
backend), and the backend still misses that fingerprint afterwards. -/
theorem get_or_compute_compute_failure (m : MemoryCache) (k : String)
    (ttlo dflt : Option Int) (err : ComputeError) (now : Int)
    (hmiss : (m.get now k).1 = none) :
    ((PromptCache.mk true dflt (.memory m) 0 0).get_or_compute k ttlo
      (.error err) now).result = .error err ∧
    ((PromptCache.mk true dflt (.memory m) 0 0).get_or_compute k ttlo
      (.error err) now).computed = true ∧
    ((PromptCache.mk true dflt (.memory m) 0 0).get_or_compute k ttlo
      (.error err) now).cache.backend = .memory (m.get now k).2 ∧
    (((m.get now k).2).get now k).1 = none := by
  have hbg : (BackendState.memory m).get now k =
      (none, .memory (m.get now k).2) := by
    have : (BackendState.memory m).get now k =
        ((m.get now k).1, .memory (m.get now k).2) := rfl
    rw [this, hmiss]
  refine ⟨?_, ?_, ?_, memoryCache_miss_stable m now k hmiss⟩ <;>
    · unfold PromptCache.get_or_compute
      rw [hbg]
      rfl

/-- Witness for C6: on an empty memory backend a failing compute propagates
its error and leaves the backend empty. -/
theorem get_or_compute_compute_failure_witness :
    ((PromptCache.mk true (some 3600) (.memory ⟨2, []⟩) 0 0).get_or_compute
      "k1" none (.error (.failure "boom")) 0).result =
        .error (.failure "boom") ∧
    ((PromptCache.mk true (some 3600) (.memory ⟨2, []⟩) 0 0).get_or_compute
      "k1" none (.error (.failure "boom")) 0).computed = true ∧
    ((PromptCache.mk true (some 3600) (.memory ⟨2, []⟩) 0 0).get_or_compute
      "k1" none (.error (.failure "boom")) 0).cache.backend =
        .memory ((MemoryCache.mk 2 []).get 0 "k1").2 ∧
    ((((MemoryCache.mk 2 []).get 0 "k1").2).get 0 "k1").1 = none :=
  get_or_compute_compute_failure ⟨2, []⟩ "k1" none (some 3600)
    (.failure "boom") 0 (by decide)

/-- `FileCache.get` never changes the writability of the medium. -/
theorem fileCache_get_writable (s : FileCache) (now : Int) (k : String) :
    (s.get now k).2.writable = s.writable := by
  unfold FileCache.get
  cases hf : s.files.find? (fun p => p.1 == k) with
  | none => rfl
  | some hit => by_cases hex : hit.2.is_expired now <;> simp [hex]

/-- C5: when the backend `put` fails with `CacheBackendError` (unwritable
medium), `get_or_compute` does not propagate the error: it invokes the
compute callback, returns the computed value to the caller, and keeps the
post-lookup backend (the failed store is swallowed, treated as a miss). -/
theorem get_or_compute_put_failure (f : FileCache) (k v : String)
    (ttlo dflt : Option Int) (now : Int)
    (hw : f.writable = false) (hmiss : (f.get now k).1 = none) :
    ((PromptCache.mk true dflt (.file f) 0 0).get_or_compute k ttlo
      (.ok v) now).result = .ok v ∧
    ((PromptCache.mk true dflt (.file f) 0 0).get_or_compute k ttlo
      (.ok v) now).computed = true ∧
    ((PromptCache.mk true dflt (.file f) 0 0).get_or_compute k ttlo
      (.ok v) now).cache.backend = .file (f.get now k).2 := by
  have hbg : (BackendState.file f).get now k =
      (none, .file (f.get now k).2) := by
    have : (BackendState.file f).get now k =
        ((f.get now k).1, .file (f.get now k).2) := rfl
    rw [this, hmiss]
  have hput : ∀ e : CacheEntry,
      (BackendState.file (f.get now k).2).put k e = .error .diskFull := by
    intro e
    have hw' : (f.get now k).2.writable = false := by
      rw [fileCache_get_writable, hw]
    show ((f.get now k).2.put k e).map BackendState.file =
      Except.error CacheBackendError.diskFull
    unfold FileCache.put
    rw [hw']
    rfl
  refine ⟨?_, ?_, ?_⟩ <;>
    · unfold PromptCache.get_or_compute
      rw [hbg]
      simp only [hput]
      rfl

/-- Witness for C5: an unwritable file backend still serves the computed
value. -/
theorem get_or_compute_put_failure_witness :
    ((PromptCache.mk true (some 3600) (.file ⟨false, []⟩) 0 0).get_or_compute
      "k1" none (.ok "A") 0).result = .ok "A" ∧
    ((PromptCache.mk true (some 3600) (.file ⟨false, []⟩) 0 0).get_or_compute
      "k1" none (.ok "A") 0).computed = true ∧
    ((PromptCache.mk true (some 3600) (.file ⟨false, []⟩) 0 0).get_or_compute
      "k1" none (.ok "A") 0).cache.backend =
        .file ((FileCache.mk false []).get 0 "k1").2 :=
  get_or_compute_put_failure ⟨false, []⟩ "k1" "A" none (some 3600) 0
    rfl (by decide)

/-- The stored entry for `k` sits at the most-recently-used position with
payload `v`, creation time `t0` and TTL `Tv`. -/
def frontLive (m : MemoryCache) (k v : String) (t0 Tv : Int) : Prop :=
  ∃ e rest, m.data = (k, e) :: rest ∧ e.payload = v ∧ e.created_at = t0 ∧
    e.ttl = some Tv

/-- A `get` within the TTL window on a cache whose front entry is live hits:
it returns the stored entry (payload, creation time and TTL intact, access
statistics refreshed) and keeps it at the front. -/
theorem frontLive_get (m : MemoryCache) (k v : String) (t0 Tv now : Int)
    (h : frontLive m k v t0 Tv) (hlive : now - t0 < Tv) :
    ∃ e', m.get now k =
        (some e', { m with data := (k, e') :: m.data.filter (fun p => p.1 != k) }) ∧
      e'.payload = v ∧ e'.created_at = t0 ∧ e'.ttl = some Tv := by
  obtain ⟨e, rest, hd, hp, hc, ht⟩ := h
  refine ⟨{ e with last_accessed := now, hit_count := e.hit_count + 1 },
    ?_, hp, hc, ht⟩
  have hexp : e.is_expired now = false :=
    is_expired_false_of_lt e now Tv ht (by rw [hc]; omega)
  unfold MemoryCache.get
  rw [hd, List.find?_cons_of_pos _ (by simp)]
  simp [hexp, hd]

/-- Facade invariant for the repeated-call argument: the cache is enabled
and its memory backend holds the stored value at the front. -/
def pcInv (pc : PromptCache) (k v : String) (t0 Tv : Int) : Prop :=
  pc.enabled = true ∧ ∃ m, pc.backend = .memory m ∧ frontLive m k v t0 Tv

/-- One `get_or_compute` call within the TTL window under the invariant:
returns the stored payload, does not invoke compute, and preserves the
invariant. -/
theorem get_or_compute_hit_of_inv (pc : PromptCache) (k v : String)
    (t0 Tv t : Int) (ttlo : Option Int) (cmp : Except ComputeError String)
    (hinv : pcInv pc k v t0 Tv) (hlive : t - t0 < Tv) :
    (pc.get_or_compute k ttlo cmp t).result = .ok v ∧
    (pc.get_or_compute k ttlo cmp t).computed = false ∧
    pcInv (pc.get_or_compute k ttlo cmp t).cache k v t0 Tv := by
  obtain ⟨hen, m, hb, hfl⟩ := hinv
  obtain ⟨e', hget, hp, hc, ht⟩ := frontLive_get m k v t0 Tv t hfl hlive
  have hbg : pc.backend.get t k =
      (some e', .memory { m with data := (k, e') :: m.data.filter (fun p => p.1 != k) }) := by
    rw [hb]
    have : (BackendState.memory m).get t k =
        ((m.get t k).1, .memory (m.get t k).2) := rfl
    rw [this, hget]
  have hout : pc.get_or_compute k ttlo cmp t =
      ⟨.ok e'.payload,
        { pc with
            backend := .memory
              { m with data := (k, e') :: m.data.filter (fun p => p.1 != k) },
            hits := pc.hits + 1 },
        false⟩ := by
    unfold PromptCache.get_or_compute
    rw [hbg]
    simp [hen]
  rw [hout]
  refine ⟨by rw [hp], rfl, by simp [hen], ?_⟩
  exact ⟨_, rfl, e', m.data.filter (fun p => p.1 != k), rfl, hp, hc, ht⟩

/-- Every call of a same-fingerprint sequence made within the TTL window
under the invariant returns the stored payload without invoking compute. -/
theorem callsSeq_hits (k v : String) (t0 Tv : Int) (ttlo : Option Int)
    (calls : List (Int × Except ComputeError String)) :
    ∀ pc : PromptCache, pcInv pc k v t0 Tv →
      (∀ c ∈ calls, c.1 - t0 < Tv) →
      ∀ p ∈ (callsSeq pc k ttlo calls).1, p = (.ok v, false) := by
  induction calls with
  | nil =>
    intro pc _ _ p hp
    simp [callsSeq] at hp
  | cons c rest ih =>
    intro pc hinv hc p hp
    have hstep := get_or_compute_hit_of_inv pc k v t0 Tv c.1 ttlo c.2 hinv
      (hc c (by simp))
    rw [callsSeq] at hp
    simp only [List.mem_cons] at hp
    rcases hp with hp | hp
    · rw [hp, hstep.1, hstep.2.1]
    · exact ih ((pc.get_or_compute k ttlo c.2 c.1).cache) hstep.2.2
        (fun d hd => hc d (by simp [hd])) p hp

/-- With capacity at least one, a `put` leaves the stored entry at the
most-recently-used position. -/
theorem frontLive_put (m : MemoryCache) (k : String) (e : CacheEntry)
    (v : String) (t0 Tv : Int) (hs : 1 ≤ m.max_size)
    (hp : e.payload = v) (hc : e.created_at = t0) (ht : e.ttl = some Tv) :
    frontLive (m.put k e) k v t0 Tv := by
  unfold MemoryCache.put frontLive
  cases hms : m.max_size with
  | zero => omega
  | succ n =>
    exact ⟨e, (m.data.filter (fun p => p.1 != k)).take n,
      by simp [List.take_succ_cons], hp, hc, ht⟩

/-- C1: with the cache enabled over a memory backend of capacity at least
one, a first `get_or_compute` for a fingerprint with no live entry invokes
compute, returns its value and stores it with TTL `ttl_override` or
`default_ttl`; afterwards every subsequent call for the same fingerprint
made before that TTL elapses returns the exact stored payload with the
compute callback not invoked — compute runs at most once within the TTL
window. -/
theorem get_or_compute_at_most_once (m : MemoryCache) (k v : String)
    (ttlo dflt : Option Int) (t0 Tv : Int)
    (calls : List (Int × Except ComputeError String))
    (hs : 1 ≤ m.max_size)
    (hmiss : (m.get t0 k).1 = none)
    (hT : (ttlo <|> dflt) = some Tv)
    (hcalls : ∀ c ∈ calls, c.1 - t0 < Tv) :
    ((PromptCache.mk true dflt (.memory m) 0 0).get_or_compute k ttlo
      (.ok v) t0).result = .ok v ∧
    ((PromptCache.mk true dflt (.memory m) 0 0).get_or_compute k ttlo
      (.ok v) t0).computed = true ∧
    ∀ p ∈ (callsSeq
        ((PromptCache.mk true dflt (.memory m) 0 0).get_or_compute k ttlo
          (.ok v) t0).cache k ttlo calls).1,
      p = (.ok v, false) := by
  have hbg : (BackendState.memory m).get t0 k =
      (none, .memory (m.get t0 k).2) := by
    have : (BackendState.memory m).get t0 k =
        ((m.get t0 k).1, .memory (m.get t0 k).2) := rfl
    rw [this, hmiss]
  have hout : (PromptCache.mk true dflt (.memory m) 0 0).get_or_compute k ttlo
      (.ok v) t0 =
      ⟨.ok v,
        ⟨true, dflt,
          .memory ((m.get t0 k).2.put k
            ⟨v, t0, ttlo <|> dflt, t0, 0⟩), 0, 1⟩,
        true⟩ := by
    unfold PromptCache.get_or_compute
    rw [hbg]
    rfl
  have hinv : pcInv (⟨true, dflt,
      .memory ((m.get t0 k).2.put k ⟨v, t0, ttlo <|> dflt, t0, 0⟩), 0, 1⟩ :
        PromptCache) k v t0 Tv := by
    refine ⟨rfl, _, rfl, ?_⟩
    exact frontLive_put _ k _ v t0 Tv
      (by rw [memoryCache_get_max_size]; exact hs) rfl rfl hT
  rw [hout]
  exact ⟨rfl, rfl, callsSeq_hits k v t0 Tv ttlo calls _ hinv hcalls⟩

/-- Witness for C1: storing "A" under "k1" with default TTL 3600 at time 0,
two later calls inside the window (one even carrying a failing compute)
both return "A" without invoking compute. -/
theorem get_or_compute_at_most_once_witness :
    ((PromptCache.mk true (some 3600) (.memory ⟨2, []⟩) 0 0).get_or_compute
      "k1" none (.ok "A") 0).result = .ok "A" ∧
    ((PromptCache.mk true (some 3600) (.memory ⟨2, []⟩) 0 0).get_or_compute
      "k1" none (.ok "A") 0).computed = true ∧
    ∀ p ∈ (callsSeq
        ((PromptCache.mk true (some 3600) (.memory ⟨2, []⟩) 0 0).get_or_compute
          "k1" none (.ok "A") 0).cache "k1" none
        [(10, .error (.failure "boom")), (1200, .ok "B")]).1,
      p = (.ok "A", false) :=
  get_or_compute_at_most_once ⟨2, []⟩ "k1" "A" none (some 3600) 0 3600
    [(10, .error (.failure "boom")), (1200, .ok "B")]
    (by decide) (by decide) rfl (by decide)

/-- The directory state produced by storing entry `e` under `k` on top of
state `f0`. -/
def storedFile (f0 : FileCache) (k : String) (e : CacheEntry) : FileCache :=
  { f0 with files := (k, e) :: f0.files.filter (fun p => p.1 != k) }

/-- C9: a value stored through one enabled `PromptCache` over a `FileCache`
(the shared directory state) is, before the stored TTL elapses, readable
from the same directory state: the shared `FileCache` itself serves the
stored entry, and a second, independent `PromptCache` instance rooted at
that state returns the stored payload without invoking its compute
callback. -/
theorem fileCache_sharing (f : FileCache) (k v : String)
    (ttlo1 ttlo2 dflt1 dflt2 : Option Int)
    (cmp2 : Except ComputeError String) (t0 t1 Tv : Int) (h2 m2 : Nat)
    (hw : f.writable = true) (hmiss : (f.get t0 k).1 = none)
    (hT : (ttlo1 <|> dflt1) = some Tv) (hlive : t1 - t0 < Tv) :
    ∃ f1 : FileCache,
      ((PromptCache.mk true dflt1 (.file f) 0 0).get_or_compute k ttlo1
        (.ok v) t0).cache.backend = .file f1 ∧
      (∃ e, (f1.get t1 k).1 = some e ∧ e.payload = v) ∧
      ((PromptCache.mk true dflt2 (.file f1) h2 m2).get_or_compute k ttlo2
        cmp2 t1).result = .ok v ∧
      ((PromptCache.mk true dflt2 (.file f1) h2 m2).get_or_compute k ttlo2
        cmp2 t1).computed = false := by
  have hw' : (f.get t0 k).2.writable = true := by
    rw [fileCache_get_writable, hw]
  have hbg1 : (BackendState.file f).get t0 k =
      (none, .file (f.get t0 k).2) := by
    have : (BackendState.file f).get t0 k =
        ((f.get t0 k).1, .file (f.get t0 k).2) := rfl
    rw [this, hmiss]
  have hputb : (BackendState.file (f.get t0 k).2).put k
      ⟨v, t0, ttlo1 <|> dflt1, t0, 0⟩ =
      .ok (.file (storedFile (f.get t0 k).2 k
        ⟨v, t0, ttlo1 <|> dflt1, t0, 0⟩)) := by
    show (FileCache.put (f.get t0 k).2 k
      ⟨v, t0, ttlo1 <|> dflt1, t0, 0⟩).map BackendState.file = _
    unfold FileCache.put storedFile
    simp [hw']
    rfl
  have hout1 : (PromptCache.mk true dflt1 (.file f) 0 0).get_or_compute k
      ttlo1 (.ok v) t0 =
      ⟨.ok v,
        ⟨true, dflt1,
          .file (storedFile (f.get t0 k).2 k ⟨v, t0, ttlo1 <|> dflt1, t0, 0⟩),
          0, 1⟩,
        true⟩ := by
    unfold PromptCache.get_or_compute
    rw [hbg1]
    simp only [hputb]
    rfl
  have hget1 : (storedFile (f.get t0 k).2 k
      ⟨v, t0, ttlo1 <|> dflt1, t0, 0⟩).get t1 k =
      (some ⟨v, t0, ttlo1 <|> dflt1, t0, 0⟩,
       storedFile (f.get t0 k).2 k ⟨v, t0, ttlo1 <|> dflt1, t0, 0⟩) := by
    have hexp : (⟨v, t0, ttlo1 <|> dflt1, t0, 0⟩ : CacheEntry).is_expired
        t1 = false :=
      is_expired_false_of_lt _ t1 Tv hT (by simpa using hlive)
    unfold FileCache.get storedFile
    rw [List.find?_cons_of_pos _ (by simp)]
    simp [hexp]
  have hbg2 : (BackendState.file (storedFile (f.get t0 k).2 k
      ⟨v, t0, ttlo1 <|> dflt1, t0, 0⟩)).get t1 k =
      (some ⟨v, t0, ttlo1 <|> dflt1, t0, 0⟩,
       .file (storedFile (f.get t0 k).2 k ⟨v, t0, ttlo1 <|> dflt1, t0, 0⟩)) := by
    have : (BackendState.file (storedFile (f.get t0 k).2 k
        ⟨v, t0, ttlo1 <|> dflt1, t0, 0⟩)).get t1 k =
        (((storedFile (f.get t0 k).2 k ⟨v, t0, ttlo1 <|> dflt1, t0, 0⟩).get
            t1 k).1,
         .file ((storedFile (f.get t0 k).2 k
            ⟨v, t0, ttlo1 <|> dflt1, t0, 0⟩).get t1 k).2) := rfl
    rw [this, hget1]
  have hout2 : (PromptCache.mk true dflt2
      (.file (storedFile (f.get t0 k).2 k ⟨v, t0, ttlo1 <|> dflt1, t0, 0⟩))
      h2 m2).get_or_compute k ttlo2 cmp2 t1 =
      ⟨.ok v,
        ⟨true, dflt2,
          .file (storedFile (f.get t0 k).2 k ⟨v, t0, ttlo1 <|> dflt1, t0, 0⟩),
          h2 + 1, m2⟩,
        false⟩ := by
    unfold PromptCache.get_or_compute
    rw [hbg2]
    rfl
  exact ⟨storedFile (f.get t0 k).2 k ⟨v, t0, ttlo1 <|> dflt1, t0, 0⟩,
    by rw [hout1],
    ⟨⟨v, t0, ttlo1 <|> dflt1, t0, 0⟩, by rw [hget1], rfl⟩,
    by rw [hout2], by rw [hout2]⟩

/-- Witness for C9: a value stored at time 0 with default TTL 3600 through
one cache over an empty writable directory is served at time 100 to a
second cache over the shared directory state, whose compute (set up to
fail) is never invoked. -/
theorem fileCache_sharing_witness :
    ∃ f1 : FileCache,
      ((PromptCache.mk true (some 3600) (.file ⟨true, []⟩) 0 0).get_or_compute
        "k1" none (.ok "A") 0).cache.backend = .file f1 ∧
      (∃ e, (f1.get 100 "k1").1 = some e ∧ e.payload = "A") ∧
      ((PromptCache.mk true (some 60) (.file f1) 0 0).get_or_compute
        "k1" none (.error (.failure "recompute")) 100).result = .ok "A" ∧
      ((PromptCache.mk true (some 60) (.file f1) 0 0).get_or_compute
        "k1" none (.error (.failure "recompute")) 100).computed = false :=
  fileCache_sharing ⟨true, []⟩ "k1" "A" none none (some 3600) (some 60)
    (.error (.failure "recompute")) 0 100 3600 0 0 rfl (by decide) rfl
    (by decide)
